import Mathlib

/-!
The bucket listener and the uploader of minio_demo.

A shallow embedding of `cmd/bucketlistener/bucket_listener.go` and of the upload
path of `cmd/uploader/uploader.go`.

The programs only act on the outside world (standard error, the local file
system, the object store).  A run is therefore modelled as the sequence of
library calls it makes, in order, each with the arguments it is given
(`Effect`), and the results of the calls that can fail are supplied from outside
(`Outcomes`).  A Go run-time panic is modelled explicitly (`Flow.panicked`), and
so are the calls registered with `defer`, which Go runs when the enclosing
function returns or panics.
-/

namespace MinioDemo

/-! ## What both programs share -/

/-- An operand handed to the `fmt` functions. -/
inductive Arg
  | str (s : String)
  | int (n : Int)
  | err (e : String)
deriving DecidableEq, Repr

/-- One call into a library, with its arguments.  The `fmt` calls all write to
`os.Stderr`, except `println`, which writes to standard output.  The last
argument of `fPutObject` is the field `ContentType` of the options handed to
`client.FPutObject`, which is not always the content type the object is sent
with (see `Uploader.fPutObjectContentType`). -/
inductive Effect
  | fprint (s : String)
  | fprintln (args : List Arg)
  | fprintf (format : String) (args : List Arg)
  | println (s : String)
  | createTemp (dir pattern : String)
  | close (name : String)
  | fGetObject (bucket key path : String)
  | imagingOpen (path : String)
  | imagingSave (path : String)
  | fPutObject (bucket key path contentTypeOption : String)
  | remove (path : String)
deriving DecidableEq, Repr

/-- The function `check`: an error (given by its text) is reported, followed by
the formatted line when a format is given; nothing happens without an error, and
in both cases the caller goes on. -/
def check (e : Option String) (format : String) (v : List Arg) : List Effect :=
  match e with
  | none => []
  | some msg =>
    Effect.fprintln [Arg.str "Error:", Arg.err msg] ::
      (if format ≠ "" then [Effect.fprintf (format ++ "\n") v] else [])

def colorReset : String := "\x1b[0m"

def colorYellow : String := "\x1b[33m"

def colorRed : String := "\x1b[31m"

/-- The function `log`: the colour, the level padded to eight columns, the
formatted message, the colour reset. -/
def log (level message : String) (args : List Arg) : List Effect :=
  let color := if level = "ERROR" then colorRed else colorYellow
  [Effect.fprint color,
   Effect.fprintf "%-8s" [Arg.str level],
   Effect.fprintf (message ++ "\n") args,
   Effect.fprint colorReset]

def endpoint : String := "localhost:9000"

def inputImagesBucket : String := "input-images"

def invertedImagesBucket : String := "inverted-images"

/-- The two fields of `minio.UploadInfo` the programs read. -/
structure UploadInfo where
  key : String
  size : Int
deriving DecidableEq, Repr

/-! ## The bucket listener -/

namespace BucketListener

/-- The two fields of a notification record the listener reads:
`record.S3.Object.Key` and `record.S3.Object.ContentType`. -/
structure Record where
  key : String
  contentType : String
deriving DecidableEq, Repr

/-- What the fallible calls return while one record is processed.  An error is
given by its text, `none` is Go's `nil` error.
* `createTemp`: `os.CreateTemp`, the name of the new file or the error;
* `fGetObject`: the error of `client.FGetObject`;
* `imagingOpen`: the error of `imaging.Open`;
* `imagingSave`: the error of `imaging.Save`;
* `fPutObject`: both results of `client.FPutObject`. -/
structure Outcomes where
  createTemp : Except String String
  fGetObject : Option String
  imagingOpen : Option String
  imagingSave : Option String
  fPutObject : UploadInfo × Option String

/-- A value received from the notification channel (`notification.Info`): the
stream error, if any, and the records, each with the outcomes its processing
will meet. -/
structure Info where
  err : Option String
  records : List (Record × Outcomes)

/-- The state of `main` while it runs: the calls made so far, oldest first, and
the paths of the pending deferred `os.Remove` calls, latest first. -/
structure State where
  trace : List Effect
  deferred : List String
deriving DecidableEq, Repr

def State.emit (s : State) (es : List Effect) : State :=
  { s with trace := s.trace ++ es }

def State.defer (s : State) (path : String) : State :=
  { s with deferred := path :: s.deferred }

/-- Where control is after a piece of `main`: still running, or unwinding from
a run-time panic. -/
inductive Flow
  | running (s : State)
  | panicked (s : State)
deriving DecidableEq, Repr

/-- The function `tempName`.  When `os.CreateTemp` fails, `tempFile` is `nil`;
`check` reports the error and returns, and `tempFile.Name()` then reads a field
through the nil pointer, which panics: the result is `none`. -/
def tempName (o : Outcomes) (s : State) : Option String × State :=
  let s1 := s.emit [Effect.createTemp "." "image_listener_temp_"]
  match o.createTemp with
  | Except.error e => (none, s1.emit (check (some e) "cannot create temporary file" []))
  | Except.ok name =>
    (some name, (s1.emit (check none "cannot create temporary file" [])).emit [Effect.close name])

/-- The chain of comparisons on `mimetype` at the head of the record loop: the
suffix chosen, or `none` for the final `else` branch. -/
def suffixFor (mimetype : String) : Option String :=
  if mimetype = "image/jpeg" then some ".jpg"
  else if mimetype = "image/png" then some ".png"
  else none

/-- The record loop's body after a suffix has been chosen (from `tempName()` to
the final `log`).  The error of `FGetObject` is dropped.  When `imaging.Open`
fails, `image` is a nil interface value and `imaging.Invert` panics on reading
its bounds. -/
def transform (key suffix : String) (o : Outcomes) (s : State) : Flow :=
  match tempName o s with
  | (none, s1) => Flow.panicked s1
  | (some tempPath, s1) =>
    let s2 := s1.defer tempPath
    let processedPath := tempPath ++ "_inverted" ++ suffix
    let s3 := s2.defer processedPath
    let s4 := s3.emit [Effect.fGetObject inputImagesBucket key tempPath]
    let s5 := (s4.emit [Effect.imagingOpen tempPath]).emit
      (check o.imagingOpen "cannot open temporary file" [])
    match o.imagingOpen with
    | some _ => Flow.panicked s5
    | none =>
      let s6 := (s5.emit [Effect.imagingSave processedPath]).emit
        (check o.imagingSave "cannot save image" [])
      let info := o.fPutObject.1
      let s7 := (s6.emit [Effect.fPutObject invertedImagesBucket key processedPath ""]).emit
        (check o.fPutObject.2 "CANNOT UPLOAD OBJECT" [])
      Flow.running (s7.emit
        (log "INFO" "Uploaded %s (size: %d)" [Arg.str info.key, Arg.int info.size]))

/-- One turn of the record loop. -/
def processRecord (record : Record) (o : Outcomes) (s : State) : Flow :=
  let key := record.key
  let mimetype := record.contentType
  match suffixFor mimetype with
  | none => Flow.running (s.emit (log "ERROR" "Not a JPEG or PNG file" []))
  | some suffix => transform key suffix o s

/-- The loop `for _, record := range event.Records`. -/
def processRecords : List (Record × Outcomes) → State → Flow
  | [], s => Flow.running s
  | (record, o) :: rest, s =>
    match processRecord record o s with
    | Flow.running s1 => processRecords rest s1
    | Flow.panicked s1 => Flow.panicked s1

/-- One turn of the loop over the channel. -/
def processEvent (event : Info) (s : State) : Flow :=
  let s1 := match event.err with
    | some e => s.emit (log "ERROR" e [])
    | none => s
  processRecords event.records s1

/-- The loop `for event := range channel`, over the events delivered before the
channel is closed. -/
def processEvents : List Info → State → Flow
  | [], s => Flow.running s
  | event :: rest, s =>
    match processEvent event s with
    | Flow.running s1 => processEvents rest s1
    | Flow.panicked s1 => Flow.panicked s1

/-- How the process ends: every call it made, and whether it died of a panic. -/
structure Exit where
  trace : List Effect
  crashed : Bool
deriving DecidableEq, Repr

/-- The deferred calls run, latest first, when `main` returns and also when it
panics. -/
def unwind : Flow → Exit
  | Flow.running s => { trace := s.trace ++ s.deferred.map Effect.remove, crashed := false }
  | Flow.panicked s => { trace := s.trace ++ s.deferred.map Effect.remove, crashed := true }

/-- The function `main`, given the two credentials read from the environment and
the events the channel delivers.  `minio.New` is given the constant endpoint and
static credentials and returns no error. -/
def main (accessKey secretKey : String) (events : List Info) : Exit :=
  if accessKey = "" ∨ secretKey = "" then
    { trace := log "ERROR" "please set MINIO_ACCESSKEY and MINIO_SECRETKEY" [], crashed := false }
  else
    let s0 : State := { trace := check none "cannot create minio client" [], deferred := [] }
    let s1 := s0.emit [Effect.println "Starting bucket listener"]
    unwind (processEvents events s1)

/-! ### Reading a trace -/

/-- The keys of the objects a trace downloads, in order. -/
def downloads : List Effect → List String
  | [] => []
  | Effect.fGetObject _ key _ :: es => key :: downloads es
  | _ :: es => downloads es

/-- The keys a trace tries to upload, in order. -/
def uploads : List Effect → List String
  | [] => []
  | Effect.fPutObject _ key _ _ :: es => key :: uploads es
  | _ :: es => uploads es

/-- The paths a trace removes, in order. -/
def removals : List Effect → List String
  | [] => []
  | Effect.remove path :: es => path :: removals es
  | _ :: es => removals es

/-- The number of temporary files a trace asks for. -/
def allocations : List Effect → Nat
  | [] => 0
  | Effect.createTemp _ _ :: es => allocations es + 1
  | _ :: es => allocations es

/-- The calls of a trace that touch the object store or remove a file. -/
def storageOps : List Effect → List Effect
  | [] => []
  | Effect.fGetObject b k p :: es => Effect.fGetObject b k p :: storageOps es
  | Effect.fPutObject b k p c :: es => Effect.fPutObject b k p c :: storageOps es
  | Effect.remove p :: es => Effect.remove p :: storageOps es
  | _ :: es => storageOps es

/-- The keys of the records of supported type, event by event and record by
record. -/
def supportedKeys : List Info → List String
  | [] => []
  | event :: rest =>
    ((event.records.filter fun ro => (suffixFor ro.1.contentType).isSome).map fun ro => ro.1.key)
      ++ supportedKeys rest

/-- A flow seen from an earlier state: the trace continues that state's trace and
the new deferred calls are stacked on its deferred calls. -/
def Flow.after (s : State) : Flow → Flow
  | Flow.running t =>
    Flow.running { trace := s.trace ++ t.trace, deferred := t.deferred ++ s.deferred }
  | Flow.panicked t =>
    Flow.panicked { trace := s.trace ++ t.trace, deferred := t.deferred ++ s.deferred }

/-- The state in which nothing has happened yet. -/
def State.fresh : State := { trace := [], deferred := [] }

/-! ### Sample inputs -/

/-- Every call succeeds; the temporary file is `name` and the upload reports
`size` bytes under `key`. -/
def allFine (name key : String) (size : Int) : Outcomes :=
  { createTemp := Except.ok name, fGetObject := none, imagingOpen := none,
    imagingSave := none, fPutObject := ({ key := key, size := size }, none) }

def catRecord : Record := { key := "cat.jpg", contentType := "image/jpeg" }

def dogRecord : Record := { key := "dog.png", contentType := "image/png" }

def pdfRecord : Record := { key := "doc.pdf", contentType := "application/pdf" }

def brokenRecord : Record := { key := "broken.png", contentType := "image/png" }

/-- No temporary file can be created (for instance the directory is not
writable). -/
def noTempFile : Outcomes :=
  { createTemp := Except.error "open ./image_listener_temp_1: permission denied",
    fGetObject := none, imagingOpen := none, imagingSave := none,
    fPutObject := ({ key := "", size := 0 }, none) }

/-- The download fails with a network error, so the temporary file stays empty
and cannot be decoded. -/
def downloadFails : Outcomes :=
  { createTemp := Except.ok "./image_listener_temp_7",
    fGetObject := some "dial tcp 127.0.0.1:9000: connect: connection refused",
    imagingOpen := some "image: unknown format", imagingSave := none,
    fPutObject := ({ key := "", size := 0 }, none) }

/-- The object is stored with an image content type but its bytes are no
image. -/
def notAnImage : Outcomes :=
  { createTemp := Except.ok "./image_listener_temp_3", fGetObject := none,
    imagingOpen := some "image: unknown format", imagingSave := none,
    fPutObject := ({ key := "", size := 0 }, none) }

/-- Everything succeeds up to the upload, which fails. -/
def uploadFails : Outcomes :=
  { createTemp := Except.ok "./image_listener_temp_5", fGetObject := none,
    imagingOpen := none, imagingSave := none,
    fPutObject := ({ key := "", size := 0 }, some "connection refused") }

/-- Two events of one record each, both processed without any failure. -/
def twoGoodEvents : List Info :=
  [{ err := none, records := [(catRecord, allFine "./image_listener_temp_1" "cat.jpg" 512)] },
   { err := none, records := [(dogRecord, allFine "./image_listener_temp_2" "dog.png" 2048)] }]

/-- The first record cannot get a temporary file; a good record and a good event
follow. -/
def noTempFileThenGood : List Info :=
  [{ err := none,
     records := [(dogRecord, noTempFile),
                 (catRecord, allFine "./image_listener_temp_1" "cat.jpg" 512)] },
   { err := none, records := [(dogRecord, allFine "./image_listener_temp_2" "dog.png" 2048)] }]

/-- An undecodable object first; a good record and a good event follow. -/
def notAnImageThenGood : List Info :=
  [{ err := none,
     records := [(dogRecord, notAnImage),
                 (catRecord, allFine "./image_listener_temp_1" "cat.jpg" 512)] },
   { err := none, records := [(dogRecord, allFine "./image_listener_temp_2" "dog.png" 2048)] }]

/-- A failed download, a failed decode and a failed upload in three successive
records, then a fourth event. -/
def threeFailuresThenOne : List Info :=
  [{ err := none,
     records := [(brokenRecord, downloadFails), (dogRecord, notAnImage),
                 (catRecord, uploadFails)] },
   { err := none, records := [(catRecord, allFine "./image_listener_temp_9" "cat.jpg" 512)] }]

/-- A failed upload, then a good event. -/
def uploadFailsThenGood : List Info :=
  [{ err := none, records := [(dogRecord, uploadFails)] },
   { err := none, records := [(catRecord, allFine "./image_listener_temp_9" "cat.jpg" 512)] }]

/-- The calls of a turn of the record loop that runs to its end, for the key, the
suffix chosen and the temporary file `tempPath`. -/
def completedTurn (key suffix tempPath : String) (o : Outcomes) : List Effect :=
  [Effect.createTemp "." "image_listener_temp_",
   Effect.close tempPath,
   Effect.fGetObject "input-images" key tempPath,
   Effect.imagingOpen tempPath,
   Effect.imagingSave (tempPath ++ "_inverted" ++ suffix)]
  ++ check o.imagingSave "cannot save image" []
  ++ [Effect.fPutObject "inverted-images" key (tempPath ++ "_inverted" ++ suffix) ""]
  ++ check o.fPutObject.2 "CANNOT UPLOAD OBJECT" []
  ++ [Effect.fprint colorYellow,
      Effect.fprintf "%-8s" [Arg.str "INFO"],
      Effect.fprintf "Uploaded %s (size: %d)\n"
        [Arg.str o.fPutObject.1.key, Arg.int o.fPutObject.1.size],
      Effect.fprint colorReset]

/-- The download and the upload of a turn that runs to its end; nothing for a
record of unsupported type. -/
def turnOps (ro : Record × Outcomes) : List Effect :=
  match suffixFor ro.1.contentType, ro.2.createTemp with
  | some suffix, Except.ok tempPath =>
    [Effect.fGetObject "input-images" ro.1.key tempPath,
     Effect.fPutObject "inverted-images" ro.1.key (tempPath ++ "_inverted" ++ suffix) ""]
  | _, _ => []

/-- The downloads and uploads of the turns of all records, in delivery order. -/
def allTurnOps : List Info → List Effect
  | [] => []
  | event :: rest => (event.records.map turnOps).flatten ++ allTurnOps rest

/-- The state a flow has reached. -/
def Flow.state : Flow → State
  | Flow.running s => s
  | Flow.panicked s => s

/-- Whether a flow is unwinding from a panic. -/
def Flow.hasPanicked : Flow → Bool
  | Flow.running _ => false
  | Flow.panicked _ => true

end BucketListener

/-! ## The uploader -/

namespace Uploader

/-- The three results of `strings.Cut(s, ".")`, on the characters of `s`: the
text before the first dot, the text after it, and whether there is a dot.  (A
dot is a single byte that occurs in no other UTF-8 character, so cutting the
characters and cutting the bytes give the same texts.) -/
def cutDot : List Char → List Char × List Char × Bool
  | [] => ([], [], false)
  | c :: cs =>
    if c = '.' then ([], cs, true)
    else ((c :: (cutDot cs).1), (cutDot cs).2.1, (cutDot cs).2.2)

/-- The second result of `strings.Cut(name, ".")`, which `getContentType` names
`ext`. -/
def ext (name : String) : String := String.mk (cutDot name.data).2.1

/-- The function `getContentType`, over `mime.TypeByExtension`. -/
def getContentType (typeByExtension : String → String) (name : String) : String :=
  typeByExtension (ext name)

/-- The function `uploadFile`, over `filepath.Base` and
`mime.TypeByExtension`, given both results of `client.FPutObject`.  The call
is recorded with the options it is given: `cType` is the `ContentType` option,
and what the library makes of it is `fPutObjectContentType`. -/
def uploadFile (base typeByExtension : String → String) (bucket filePath : String)
    (result : UploadInfo × Option String) : List Effect :=
  let name := base filePath
  let cType := getContentType typeByExtension name
  let info := result.1
  Effect.fPutObject bucket name filePath cType ::
    (check result.2 "Failed to upload file" [] ++
      log "INFO" "Uploaded (key = %s, size = %d)" [Arg.str info.key, Arg.int info.size])

/-- The loop of `filepath.Ext` on a Unix path, over the reversed path: it walks
back from the end, stops with no extension at a separator, and returns the text
from the first dot it meets on. -/
def filepathExtRev : List Char → List Char → List Char
  | [], _ => []
  | c :: cs, seen =>
    if c = '/' then []
    else if c = '.' then '.' :: seen
    else filepathExtRev cs (c :: seen)

/-- The library function `filepath.Ext` on a Unix path: the suffix of the last
element of the path that begins at its last dot, the dot included, or the empty
string. -/
def filepathExt (path : String) : String := String.mk (filepathExtRev path.data.reverse [])

/-- The library function `filepath.Base` on a Unix path: the last element of the
path, trailing separators removed; "." for the empty path and "/" for a path of
separators only. -/
def filepathBase (path : String) : String :=
  if path = "" then "."
  else
    let stripped := path.data.reverse.dropWhile fun c => c = '/'
    let last := (stripped.takeWhile fun c => c ≠ '/').reverse
    if last = [] then "/" else String.mk last

/-- What `client.FPutObject` of minio-go does with the `ContentType` option
before it sends the object: an empty option is replaced by the type of the
extension of the file path, and by "application/octet-stream" when that
extension has no type; an option that is not empty is sent as it is. -/
def fPutObjectContentType (typeByExtension : String → String)
    (filePath contentTypeOption : String) : String :=
  if contentTypeOption = "" then
    if typeByExtension (filepathExt filePath) = "" then "application/octet-stream"
    else typeByExtension (filepathExt filePath)
  else contentTypeOption

/-- The content types the objects uploaded in a trace are sent with, in order. -/
def sentContentTypes (typeByExtension : String → String) : List Effect → List String
  | [] => []
  | Effect.fPutObject _ _ path contentTypeOption :: es =>
    fPutObjectContentType typeByExtension path contentTypeOption
      :: sentContentTypes typeByExtension es
  | _ :: es => sentContentTypes typeByExtension es

/-- A part of the table behind `mime.TypeByExtension`, enough for the examples.
Every key of that table begins with a dot, so an extension given without its dot
has no type. -/
def builtinType (extension : String) : String :=
  if extension = ".jpg" then "image/jpeg"
  else if extension = ".jpeg" then "image/jpeg"
  else if extension = ".png" then "image/png"
  else if extension = ".gif" then "image/gif"
  else if extension = ".pdf" then "application/pdf"
  else ""

end Uploader

/-! ## Theorems -/

namespace BucketListener

/-! ### Framing: what a piece of the loop does is independent of what came before -/

theorem processRecord_frame (record : Record) (o : Outcomes) (s : State) :
    processRecord record o s = (processRecord record o State.fresh).after s := by
  simp only [processRecord]
  cases hs : suffixFor record.contentType with
  | none => simp [Flow.after, State.emit, State.fresh]
  | some suffix =>
    simp only [transform, tempName]
    cases hc : o.createTemp with
    | error e => simp [Flow.after, State.emit, State.fresh]
    | ok name =>
      cases ho : o.imagingOpen with
      | some e => simp [Flow.after, State.emit, State.defer, State.fresh]
      | none => simp [Flow.after, State.emit, State.defer, State.fresh]

theorem Flow.after_after (s t : State) (f : Flow) :
    Flow.after s (Flow.after t f)
      = Flow.after { trace := s.trace ++ t.trace, deferred := t.deferred ++ s.deferred } f := by
  cases f <;> simp [Flow.after]

theorem processRecords_frame (records : List (Record × Outcomes)) (s : State) :
    processRecords records s = (processRecords records State.fresh).after s := by
  induction records generalizing s with
  | nil => simp [processRecords, Flow.after, State.fresh]
  | cons ro rest ih =>
    obtain ⟨record, o⟩ := ro
    have hf := processRecord_frame record o s
    cases hr : processRecord record o State.fresh with
    | running t =>
      rw [hr] at hf
      simp only [processRecords, hr, hf]
      rw [ih t, Flow.after_after]
      exact ih _
    | panicked t =>
      rw [hr] at hf
      simp only [processRecords, hr, hf, Flow.after]

theorem processEvent_frame (event : Info) (s : State) :
    processEvent event s = (processEvent event State.fresh).after s := by
  simp only [processEvent]
  cases event.err with
  | none => exact processRecords_frame event.records s
  | some e =>
    simp only []
    rw [processRecords_frame event.records (s.emit (log "ERROR" e [])),
      processRecords_frame event.records (State.fresh.emit (log "ERROR" e [])),
      Flow.after_after]
    simp [State.emit, State.fresh]

/-! ### The content type table -/

/-- C3: the suffix is chosen by exact string equality from a table of two
entries: ".jpg" exactly for "image/jpeg", ".png" exactly for "image/png", and
every other string (the empty one, another letter case, a type with parameters)
takes the unsupported branch. -/
theorem suffixFor_closed_table (mimetype : String) :
    (suffixFor mimetype = some ".jpg" ↔ mimetype = "image/jpeg") ∧
    (suffixFor mimetype = some ".png" ↔ mimetype = "image/png") ∧
    (suffixFor mimetype = none ↔ mimetype ≠ "image/jpeg" ∧ mimetype ≠ "image/png") ∧
    (∀ suffix, suffixFor mimetype = some suffix → suffix = ".jpg" ∨ suffix = ".png") ∧
    suffixFor "" = none ∧ suffixFor "IMAGE/JPEG" = none ∧ suffixFor "Image/Png" = none ∧
    suffixFor "image/jpg" = none ∧ suffixFor "image/jpeg; charset=x" = none ∧
    suffixFor " image/png" = none := by
  have hne : ("image/png" : String) ≠ "image/jpeg" := by decide
  have hsuf : (".jpg" : String) ≠ ".png" := by decide
  refine ⟨?_, ?_, ?_, ?_, by decide, by decide, by decide, by decide, by decide, by decide⟩
  · unfold suffixFor
    by_cases h1 : mimetype = "image/jpeg"
    · simp [h1]
    · by_cases h2 : mimetype = "image/png"
      · simp [h2, hne, hsuf.symm]
      · simp [h1, h2]
  · unfold suffixFor
    by_cases h1 : mimetype = "image/jpeg"
    · simp [h1, hne.symm, hsuf]
    · by_cases h2 : mimetype = "image/png"
      · simp [h2, hne]
      · simp [h1, h2]
  · unfold suffixFor
    by_cases h1 : mimetype = "image/jpeg"
    · simp [h1]
    · by_cases h2 : mimetype = "image/png"
      · simp [h2, hne]
      · simp [h1, h2]
  · intro suffix
    unfold suffixFor
    by_cases h1 : mimetype = "image/jpeg"
    · simp only [h1, if_true, Option.some.injEq]
      intro h
      exact Or.inl h.symm
    · by_cases h2 : mimetype = "image/png"
      · simp only [h2, hne, if_true, if_false, Option.some.injEq]
        intro h
        exact Or.inr h.symm
      · simp [h1, h2]

/-! ### Records of unsupported type -/

/-- C4: a record whose content type is neither "image/jpeg" nor "image/png"
makes the loop body write one log entry, at level ERROR with the text "Not a
JPEG or PNG file", and nothing else: no temporary file is asked for, nothing is
downloaded or uploaded, no removal is deferred, and the loop goes on with the
next record. -/
theorem unsupported_record_is_only_logged (record : Record) (o : Outcomes)
    (rest : List (Record × Outcomes)) (s : State)
    (hjpeg : record.contentType ≠ "image/jpeg") (hpng : record.contentType ≠ "image/png") :
    processRecord record o s
        = Flow.running
            { trace := s.trace ++
                [Effect.fprint colorRed, Effect.fprintf "%-8s" [Arg.str "ERROR"],
                 Effect.fprintf "Not a JPEG or PNG file\n" [], Effect.fprint colorReset],
              deferred := s.deferred } ∧
    log "ERROR" "Not a JPEG or PNG file" []
        = [Effect.fprint colorRed, Effect.fprintf "%-8s" [Arg.str "ERROR"],
           Effect.fprintf "Not a JPEG or PNG file\n" [], Effect.fprint colorReset] ∧
    allocations (log "ERROR" "Not a JPEG or PNG file" []) = 0 ∧
    downloads (log "ERROR" "Not a JPEG or PNG file" []) = [] ∧
    uploads (log "ERROR" "Not a JPEG or PNG file" []) = [] ∧
    processRecords ((record, o) :: rest) s
        = processRecords rest (s.emit (log "ERROR" "Not a JPEG or PNG file" [])) := by
  have hnone : suffixFor record.contentType = none := by
    simp [suffixFor, hjpeg, hpng]
  have hlog : log "ERROR" "Not a JPEG or PNG file" []
      = [Effect.fprint colorRed, Effect.fprintf "%-8s" [Arg.str "ERROR"],
         Effect.fprintf "Not a JPEG or PNG file\n" [], Effect.fprint colorReset] := by
    decide
  refine ⟨?_, hlog, ?_, ?_, ?_, ?_⟩
  · simp only [processRecord, hnone, State.emit, hlog]
  · rw [hlog]; rfl
  · rw [hlog]; rfl
  · rw [hlog]; rfl
  · simp only [processRecords, processRecord, hnone]

theorem unsupported_record_is_only_logged_witness :
    processRecord pdfRecord noTempFile State.fresh
        = Flow.running
            { trace := State.fresh.trace ++
                [Effect.fprint colorRed, Effect.fprintf "%-8s" [Arg.str "ERROR"],
                 Effect.fprintf "Not a JPEG or PNG file\n" [], Effect.fprint colorReset],
              deferred := State.fresh.deferred } ∧
    processRecords [(pdfRecord, noTempFile), (catRecord, allFine "t" "cat.jpg" 9)] State.fresh
        = processRecords [(catRecord, allFine "t" "cat.jpg" 9)]
            (State.fresh.emit (log "ERROR" "Not a JPEG or PNG file" [])) :=
  have h := unsupported_record_is_only_logged pdfRecord noTempFile
    [(catRecord, allFine "t" "cat.jpg" 9)] State.fresh (by decide) (by decide)
  ⟨h.1, h.2.2.2.2.2⟩

/-! ### Stream errors -/

/-- C8: for an event whose stream error is set, the error is logged once, at
level ERROR, and the records of that event are then processed exactly as the
same event without the error would be on its own; the events that follow are
iterated as they are after the event without the error. -/
theorem stream_error_is_logged_and_records_still_processed (e : String)
    (records : List (Record × Outcomes)) (rest : List Info) (s : State) :
    processEvent { err := some e, records := records } s
        = (processEvent { err := none, records := records } State.fresh).after
            { trace := s.trace ++
                [Effect.fprint colorRed, Effect.fprintf "%-8s" [Arg.str "ERROR"],
                 Effect.fprintf (e ++ "\n") [], Effect.fprint colorReset],
              deferred := s.deferred } ∧
    processEvents ({ err := some e, records := records } :: rest) s
        = processEvents ({ err := none, records := records } :: rest)
            { trace := s.trace ++
                [Effect.fprint colorRed, Effect.fprintf "%-8s" [Arg.str "ERROR"],
                 Effect.fprintf (e ++ "\n") [], Effect.fprint colorReset],
              deferred := s.deferred } := by
  have hlog : log "ERROR" e []
      = [Effect.fprint colorRed, Effect.fprintf "%-8s" [Arg.str "ERROR"],
         Effect.fprintf (e ++ "\n") [], Effect.fprint colorReset] := by
    simp [log]
  have hstep : processEvent { err := some e, records := records } s
      = processEvent { err := none, records := records }
          { trace := s.trace ++
              [Effect.fprint colorRed, Effect.fprintf "%-8s" [Arg.str "ERROR"],
               Effect.fprintf (e ++ "\n") [], Effect.fprint colorReset],
            deferred := s.deferred } := by
    simp only [processEvent, State.emit, hlog]
  refine ⟨?_, ?_⟩
  · rw [hstep]
    exact processEvent_frame _ _
  · simp only [processEvents, hstep]

/-! ### Release of the staged files -/

/-- C1, evaluated where the code departs from it: when the processing of a
record that succeeded in every step ends, one temporary file has been created,
none has been removed, and both removals are still pending; in a run over two
such events the removals of the first record come after the download and the
upload of the second, when `main` returns. -/
theorem staged_files_outlive_their_record :
    processRecord catRecord (allFine "./image_listener_temp_1" "cat.jpg" 512) State.fresh
      = Flow.running
          { trace :=
              [Effect.createTemp "." "image_listener_temp_",
               Effect.close "./image_listener_temp_1",
               Effect.fGetObject "input-images" "cat.jpg" "./image_listener_temp_1",
               Effect.imagingOpen "./image_listener_temp_1",
               Effect.imagingSave "./image_listener_temp_1_inverted.jpg",
               Effect.fPutObject "inverted-images" "cat.jpg"
                 "./image_listener_temp_1_inverted.jpg" "",
               Effect.fprint colorYellow,
               Effect.fprintf "%-8s" [Arg.str "INFO"],
               Effect.fprintf "Uploaded %s (size: %d)\n" [Arg.str "cat.jpg", Arg.int 512],
               Effect.fprint colorReset],
            deferred := ["./image_listener_temp_1_inverted.jpg", "./image_listener_temp_1"] } ∧
    removals (processRecord catRecord (allFine "./image_listener_temp_1" "cat.jpg" 512)
      State.fresh).state.trace = [] ∧
    (main "ak" "sk" twoGoodEvents).crashed = false ∧
    storageOps (main "ak" "sk" twoGoodEvents).trace
      = [Effect.fGetObject "input-images" "cat.jpg" "./image_listener_temp_1",
         Effect.fPutObject "inverted-images" "cat.jpg" "./image_listener_temp_1_inverted.jpg" "",
         Effect.fGetObject "input-images" "dog.png" "./image_listener_temp_2",
         Effect.fPutObject "inverted-images" "dog.png" "./image_listener_temp_2_inverted.png" "",
         Effect.remove "./image_listener_temp_2_inverted.png",
         Effect.remove "./image_listener_temp_2",
         Effect.remove "./image_listener_temp_1_inverted.jpg",
         Effect.remove "./image_listener_temp_1"] := by
  refine ⟨by decide, by decide, by decide, by decide⟩

/-- No turn of the record loop removes a file, whatever the record and the
outcomes: the removals are only registered. -/
theorem processRecord_removes_nothing (record : Record) (o : Outcomes) :
    removals (processRecord record o State.fresh).state.trace = [] := by
  simp only [processRecord]
  cases hs : suffixFor record.contentType with
  | none => simp [Flow.state, State.emit, State.fresh, log, removals]
  | some suffix =>
    simp only [transform, tempName]
    cases hc : o.createTemp with
    | error e =>
      by_cases hf : ("cannot create temporary file" : String) = ""
      · simp [Flow.state, State.emit, State.fresh, check, removals, hf]
      · simp [Flow.state, State.emit, State.fresh, check, removals, hf]
    | ok name =>
      cases ho : o.imagingOpen with
      | some e =>
        by_cases hf : ("cannot open temporary file" : String) = ""
        · simp [Flow.state, State.emit, State.defer, State.fresh, check, removals, hf]
        · simp [Flow.state, State.emit, State.defer, State.fresh, check, removals, hf]
      | none =>
        cases hsv : o.imagingSave <;> cases hp : o.fPutObject.2 <;>
          simp [Flow.state, State.emit, State.defer, State.fresh, check, log, removals]

/-! ### Failures that stop the listener -/

/-- C2, evaluated where the code departs from it: when no temporary file can be
created for a record, `tempName` panics after reporting the error, so the good
record and the good event that follow are never handled; likewise an object
whose download fails, and which therefore cannot be decoded, stops the listener
in the first of three failing records, and the fourth event is never handled. -/
theorem failed_allocation_stops_the_listener :
    tempName noTempFile State.fresh
      = (none,
         { trace :=
             [Effect.createTemp "." "image_listener_temp_",
              Effect.fprintln [Arg.str "Error:",
                Arg.err "open ./image_listener_temp_1: permission denied"],
              Effect.fprintf "cannot create temporary file\n" []],
           deferred := [] }) ∧
    main "ak" "sk" noTempFileThenGood
      = { trace :=
            [Effect.println "Starting bucket listener",
             Effect.createTemp "." "image_listener_temp_",
             Effect.fprintln [Arg.str "Error:",
               Arg.err "open ./image_listener_temp_1: permission denied"],
             Effect.fprintf "cannot create temporary file\n" []],
          crashed := true } ∧
    (main "ak" "sk" threeFailuresThenOne).crashed = true ∧
    downloads (main "ak" "sk" threeFailuresThenOne).trace = ["broken.png"] ∧
    supportedKeys threeFailuresThenOne = ["broken.png", "dog.png", "cat.jpg", "cat.jpg"] := by
  refine ⟨by decide, by decide, by decide, by decide, by decide⟩

/-- The failures the loop does survive: when the temporary file is created and
the downloaded file decodes, the turn ends running whatever the download, the
save and the upload return. -/
theorem processRecord_running_of_decoded (record : Record) (o : Outcomes) (s : State)
    (name : String) (hc : o.createTemp = Except.ok name) (ho : o.imagingOpen = none) :
    (processRecord record o s).hasPanicked = false := by
  simp only [processRecord]
  cases hs : suffixFor record.contentType with
  | none => simp [Flow.hasPanicked]
  | some suffix => simp [transform, tempName, hc, ho, Flow.hasPanicked]

/-! ### The download error -/

/-- C5, evaluated where the code departs from it: for "broken.png" of type
"image/png" whose download fails, the calls made are the ones listed: the error
returned by the download is not written anywhere and no line "cannot download
object" is printed; the only diagnostic is the one of the failed decode, after
which the listener panics. -/
theorem download_failure_is_not_reported :
    processRecord brokenRecord downloadFails State.fresh
      = Flow.panicked
          { trace :=
              [Effect.createTemp "." "image_listener_temp_",
               Effect.close "./image_listener_temp_7",
               Effect.fGetObject "input-images" "broken.png" "./image_listener_temp_7",
               Effect.imagingOpen "./image_listener_temp_7",
               Effect.fprintln [Arg.str "Error:", Arg.err "image: unknown format"],
               Effect.fprintf "cannot open temporary file\n" []],
            deferred := ["./image_listener_temp_7_inverted.png", "./image_listener_temp_7"] } ∧
    Effect.fprintf "cannot download object\n" []
      ∉ (processRecord brokenRecord downloadFails State.fresh).state.trace ∧
    Effect.fprintln [Arg.str "Error:",
        Arg.err "dial tcp 127.0.0.1:9000: connect: connection refused"]
      ∉ (processRecord brokenRecord downloadFails State.fresh).state.trace := by
  refine ⟨by decide, by decide, by decide⟩

/-- The result of the download plays no part in what the loop does. -/
theorem processRecord_ignores_download_error (record : Record) (o : Outcomes) (s : State)
    (e : Option String) :
    processRecord record { o with fGetObject := e } s = processRecord record o s := by
  simp only [processRecord, transform, tempName]

/-! ### The upload and its log entry -/

theorem completed_turn_trace (record : Record) (o : Outcomes) (s : State)
    (suffix tempPath : String) (hs : suffixFor record.contentType = some suffix)
    (hc : o.createTemp = Except.ok tempPath) (ho : o.imagingOpen = none) :
    processRecord record o s
      = Flow.running
          { trace := s.trace ++ completedTurn record.key suffix tempPath o,
            deferred := (tempPath ++ "_inverted" ++ suffix) :: tempPath :: s.deferred } := by
  have hinfo : ("INFO" : String) ≠ "ERROR" := by decide
  simp [processRecord, hs, transform, tempName, hc, ho, State.emit, State.defer, check, log,
    hinfo, inputImagesBucket, invertedImagesBucket, completedTurn]


/-- C6 as stated fails: for "dog.png" whose upload fails, "CANNOT UPLOAD OBJECT"
is written and the INFO entry "Uploaded" follows all the same, with the empty
key and the size 0 of the value the failed upload returned. -/
theorem uploaded_is_logged_after_a_failed_upload :
    uploadFails.fPutObject.2 = some "connection refused" ∧
    suffixFor dogRecord.contentType = some ".png" ∧
    processRecord dogRecord uploadFails State.fresh
      = Flow.running
          { trace :=
              [Effect.createTemp "." "image_listener_temp_",
               Effect.close "./image_listener_temp_5",
               Effect.fGetObject "input-images" "dog.png" "./image_listener_temp_5",
               Effect.imagingOpen "./image_listener_temp_5",
               Effect.imagingSave "./image_listener_temp_5_inverted.png",
               Effect.fPutObject "inverted-images" "dog.png"
                 "./image_listener_temp_5_inverted.png" "",
               Effect.fprintln [Arg.str "Error:", Arg.err "connection refused"],
               Effect.fprintf "CANNOT UPLOAD OBJECT\n" [],
               Effect.fprint colorYellow,
               Effect.fprintf "%-8s" [Arg.str "INFO"],
               Effect.fprintf "Uploaded %s (size: %d)\n" [Arg.str "", Arg.int 0],
               Effect.fprint colorReset],
            deferred := ["./image_listener_temp_5_inverted.png", "./image_listener_temp_5"] } := by
  refine ⟨by decide, by decide, by decide⟩

/-- C6 as amended: for a record of supported type whose processing reaches the
upload (the temporary file `tempPath` was created and the downloaded file
decoded), the calls of the turn are exactly the ones listed: the upload is
followed by nothing when it succeeds and by the error and "CANNOT UPLOAD
OBJECT" when it fails, and in both cases the INFO entry "Uploaded %s (size:
%d)" comes last, once, with the key and the size of the value the upload
returned. -/
theorem uploaded_is_logged_after_every_upload (record : Record) (o : Outcomes) (s : State)
    (suffix tempPath : String) (hs : suffixFor record.contentType = some suffix)
    (hc : o.createTemp = Except.ok tempPath) (ho : o.imagingOpen = none) :
    processRecord record o s
      = Flow.running
          { trace := s.trace ++
              ([Effect.createTemp "." "image_listener_temp_",
                Effect.close tempPath,
                Effect.fGetObject "input-images" record.key tempPath,
                Effect.imagingOpen tempPath,
                Effect.imagingSave (tempPath ++ "_inverted" ++ suffix)]
               ++ check o.imagingSave "cannot save image" []
               ++ [Effect.fPutObject "inverted-images" record.key
                     (tempPath ++ "_inverted" ++ suffix) ""]
               ++ check o.fPutObject.2 "CANNOT UPLOAD OBJECT" []
               ++ [Effect.fprint colorYellow,
                   Effect.fprintf "%-8s" [Arg.str "INFO"],
                   Effect.fprintf "Uploaded %s (size: %d)\n"
                     [Arg.str o.fPutObject.1.key, Arg.int o.fPutObject.1.size],
                   Effect.fprint colorReset]),
            deferred := (tempPath ++ "_inverted" ++ suffix) :: tempPath :: s.deferred } ∧
    (o.fPutObject.2 = none → check o.fPutObject.2 "CANNOT UPLOAD OBJECT" [] = []) ∧
    (∀ e, o.fPutObject.2 = some e →
      check o.fPutObject.2 "CANNOT UPLOAD OBJECT" []
        = [Effect.fprintln [Arg.str "Error:", Arg.err e],
           Effect.fprintf "CANNOT UPLOAD OBJECT\n" []]) ∧
    (∀ e, check e "cannot save image" []
      = match e with
        | none => []
        | some msg =>
          [Effect.fprintln [Arg.str "Error:", Arg.err msg],
           Effect.fprintf "cannot save image\n" []]) := by
  have hfmt : ("CANNOT UPLOAD OBJECT" : String) ≠ "" := by decide
  have hfmt2 : ("cannot save image" : String) ≠ "" := by decide
  have hinfo : ("INFO" : String) ≠ "ERROR" := by decide
  refine ⟨?_, ?_, ?_, ?_⟩
  · simp [processRecord, hs, transform, tempName, hc, ho, State.emit, State.defer, check, log,
      hinfo, inputImagesBucket, invertedImagesBucket]
  · intro h
    simp [h, check]
  · intro e h
    have happ : ("CANNOT UPLOAD OBJECT" : String) ++ "\n" = "CANNOT UPLOAD OBJECT\n" := by decide
    simp [h, check, hfmt, happ]
  · intro e
    have happ : ("cannot save image" : String) ++ "\n" = "cannot save image\n" := by decide
    cases e <;> simp [check, hfmt2, happ]

theorem uploaded_is_logged_after_every_upload_witness :
    suffixFor catRecord.contentType = some ".jpg" ∧
    (allFine "./image_listener_temp_1" "cat.jpg" 512).createTemp
      = Except.ok "./image_listener_temp_1" ∧
    (allFine "./image_listener_temp_1" "cat.jpg" 512).imagingOpen = none ∧
    processRecord catRecord (allFine "./image_listener_temp_1" "cat.jpg" 512) State.fresh
      = Flow.running
          { trace := State.fresh.trace ++
              ([Effect.createTemp "." "image_listener_temp_",
                Effect.close "./image_listener_temp_1",
                Effect.fGetObject "input-images" catRecord.key "./image_listener_temp_1",
                Effect.imagingOpen "./image_listener_temp_1",
                Effect.imagingSave ("./image_listener_temp_1" ++ "_inverted" ++ ".jpg")]
               ++ check (allFine "./image_listener_temp_1" "cat.jpg" 512).imagingSave
                    "cannot save image" []
               ++ [Effect.fPutObject "inverted-images" catRecord.key
                     ("./image_listener_temp_1" ++ "_inverted" ++ ".jpg") ""]
               ++ check (allFine "./image_listener_temp_1" "cat.jpg" 512).fPutObject.2
                    "CANNOT UPLOAD OBJECT" []
               ++ [Effect.fprint colorYellow,
                   Effect.fprintf "%-8s" [Arg.str "INFO"],
                   Effect.fprintf "Uploaded %s (size: %d)\n"
                     [Arg.str (allFine "./image_listener_temp_1" "cat.jpg" 512).fPutObject.1.key,
                      Arg.int (allFine "./image_listener_temp_1" "cat.jpg" 512).fPutObject.1.size],
                   Effect.fprint colorReset]),
            deferred := ("./image_listener_temp_1" ++ "_inverted" ++ ".jpg")
              :: "./image_listener_temp_1" :: State.fresh.deferred } :=
  ⟨by decide, rfl, rfl,
   (uploaded_is_logged_after_every_upload catRecord
      (allFine "./image_listener_temp_1" "cat.jpg" 512) State.fresh ".jpg"
      "./image_listener_temp_1" (by decide) rfl rfl).1⟩

/-! ### Which objects are moved, and in which order -/

/-- C7, evaluated where the code departs from it: for "dog.png" of type
"image/png" whose bytes are no image, the object is downloaded from
"input-images" into the temporary file, the decode fails and the listener panics
in `imaging.Invert`: nothing is uploaded to "inverted-images".  When no
temporary file can be created, nothing is downloaded either. -/
theorem undecodable_object_is_never_uploaded :
    suffixFor dogRecord.contentType = some ".png" ∧
    processRecord dogRecord notAnImage State.fresh
      = Flow.panicked
          { trace :=
              [Effect.createTemp "." "image_listener_temp_",
               Effect.close "./image_listener_temp_3",
               Effect.fGetObject "input-images" "dog.png" "./image_listener_temp_3",
               Effect.imagingOpen "./image_listener_temp_3",
               Effect.fprintln [Arg.str "Error:", Arg.err "image: unknown format"],
               Effect.fprintf "cannot open temporary file\n" []],
            deferred := ["./image_listener_temp_3_inverted.png", "./image_listener_temp_3"] } ∧
    uploads (processRecord dogRecord notAnImage State.fresh).state.trace = [] ∧
    downloads (processRecord dogRecord noTempFile State.fresh).state.trace = [] ∧
    uploads (processRecord dogRecord noTempFile State.fresh).state.trace = [] := by
  refine ⟨by decide, by decide, by decide, by decide, by decide⟩

/-- C9, evaluated where the code departs from it: the records of supported type
have the keys "dog.png", "cat.jpg", "dog.png", in this order, but when the
first one cannot be decoded the listener downloads "dog.png" only and uploads
nothing, and when the first one cannot get a temporary file it downloads
nothing: the records that follow are skipped. -/
theorem records_after_a_panic_are_skipped :
    supportedKeys notAnImageThenGood = ["dog.png", "cat.jpg", "dog.png"] ∧
    downloads (main "ak" "sk" notAnImageThenGood).trace = ["dog.png"] ∧
    uploads (main "ak" "sk" notAnImageThenGood).trace = [] ∧
    (main "ak" "sk" notAnImageThenGood).crashed = true ∧
    supportedKeys noTempFileThenGood = ["dog.png", "cat.jpg", "dog.png"] ∧
    downloads (main "ak" "sk" noTempFileThenGood).trace = [] ∧
    uploads (main "ak" "sk" noTempFileThenGood).trace = [] ∧
    (main "ak" "sk" noTempFileThenGood).crashed = true := by
  refine ⟨by decide, by decide, by decide, by decide, by decide, by decide, by decide,
    by decide⟩

/-! ### Runs in which no turn panics -/

theorem storageOps_append (a b : List Effect) :
    storageOps (a ++ b) = storageOps a ++ storageOps b := by
  induction a with
  | nil => rfl
  | cons e es ih => cases e <;> simp [storageOps, ih]

theorem downloads_append (a b : List Effect) :
    downloads (a ++ b) = downloads a ++ downloads b := by
  induction a with
  | nil => rfl
  | cons e es ih => cases e <;> simp [downloads, ih]

theorem uploads_append (a b : List Effect) :
    uploads (a ++ b) = uploads a ++ uploads b := by
  induction a with
  | nil => rfl
  | cons e es ih => cases e <;> simp [uploads, ih]

theorem check_quiet (e : Option String) (format : String) (v : List Arg) :
    storageOps (check e format v) = [] ∧ downloads (check e format v) = [] ∧
    uploads (check e format v) = [] := by
  cases e with
  | none => simp [check, storageOps, downloads, uploads]
  | some msg =>
    by_cases hf : format = "" <;> simp [check, storageOps, downloads, uploads, hf]

theorem log_quiet (level message : String) (args : List Arg) :
    storageOps (log level message args) = [] ∧ downloads (log level message args) = [] ∧
    uploads (log level message args) = [] := by
  simp [log, storageOps, downloads, uploads]

theorem completedTurn_ops (key suffix tempPath : String) (o : Outcomes) :
    storageOps (completedTurn key suffix tempPath o)
      = [Effect.fGetObject "input-images" key tempPath,
         Effect.fPutObject "inverted-images" key (tempPath ++ "_inverted" ++ suffix) ""] ∧
    downloads (completedTurn key suffix tempPath o) = [key] ∧
    uploads (completedTurn key suffix tempPath o) = [key] := by
  simp [completedTurn, storageOps_append, downloads_append, uploads_append, check_quiet,
    storageOps, downloads, uploads]

/-- A turn of the record loop that ends running is either the skip of a record of
unsupported type or a complete download, decode, save and upload. -/
theorem processRecord_running_cases (record : Record) (o : Outcomes) (s t : State)
    (h : processRecord record o s = Flow.running t) :
    (suffixFor record.contentType = none ∧
      t = s.emit (log "ERROR" "Not a JPEG or PNG file" [])) ∨
    ∃ suffix tempPath, suffixFor record.contentType = some suffix ∧
      o.createTemp = Except.ok tempPath ∧ o.imagingOpen = none ∧
      t = { trace := s.trace ++ completedTurn record.key suffix tempPath o,
            deferred := (tempPath ++ "_inverted" ++ suffix) :: tempPath :: s.deferred } := by
  cases hs : suffixFor record.contentType with
  | none =>
    left
    simp only [processRecord, hs, Flow.running.injEq] at h
    exact ⟨rfl, h.symm⟩
  | some suffix =>
    right
    cases hc : o.createTemp with
    | error e => simp [processRecord, hs, transform, tempName, hc] at h
    | ok tempPath =>
      cases ho : o.imagingOpen with
      | some e => simp [processRecord, hs, transform, tempName, hc, ho] at h
      | none =>
        refine ⟨suffix, tempPath, rfl, rfl, rfl, ?_⟩
        have hrun := (completed_turn_trace record o s suffix tempPath
          hs hc ho)
        rw [hrun] at h
        simp only [Flow.running.injEq] at h
        rw [← h]

theorem processRecord_running_ops (record : Record) (o : Outcomes) (s t : State)
    (h : processRecord record o s = Flow.running t) :
    storageOps t.trace = storageOps s.trace ++ turnOps (record, o) ∧
    downloads t.trace = downloads s.trace
      ++ (if (suffixFor record.contentType).isSome then [record.key] else []) ∧
    uploads t.trace = uploads s.trace
      ++ (if (suffixFor record.contentType).isSome then [record.key] else []) := by
  rcases processRecord_running_cases record o s t h with ⟨hs, ht⟩ | ⟨suffix, tempPath, hs, hc, _, ht⟩
  · subst ht
    simp [State.emit, storageOps_append, downloads_append, uploads_append, log_quiet, turnOps, hs]
  · subst ht
    simp [storageOps_append, downloads_append, uploads_append, completedTurn_ops, turnOps, hs, hc]

theorem processRecords_running_ops (records : List (Record × Outcomes)) (s t : State)
    (h : processRecords records s = Flow.running t) :
    storageOps t.trace = storageOps s.trace ++ (records.map turnOps).flatten ∧
    downloads t.trace = downloads s.trace
      ++ (records.filter fun ro => (suffixFor ro.1.contentType).isSome).map (fun ro => ro.1.key) ∧
    uploads t.trace = uploads s.trace
      ++ (records.filter fun ro => (suffixFor ro.1.contentType).isSome).map
          (fun ro => ro.1.key) := by
  induction records generalizing s with
  | nil =>
    simp only [processRecords, Flow.running.injEq] at h
    subst h
    simp
  | cons ro rest ih =>
    obtain ⟨record, o⟩ := ro
    simp only [processRecords] at h
    cases hr : processRecord record o s with
    | panicked u => simp [hr] at h
    | running u =>
      simp only [hr] at h
      obtain ⟨h1, h2, h3⟩ := processRecord_running_ops record o s u hr
      obtain ⟨i1, i2, i3⟩ := ih u h
      refine ⟨?_, ?_, ?_⟩
      · rw [i1, h1]; simp
      · rw [i2, h2]
        by_cases hsup : (suffixFor record.contentType).isSome <;> simp [List.filter_cons, hsup]
      · rw [i3, h3]
        by_cases hsup : (suffixFor record.contentType).isSome <;> simp [List.filter_cons, hsup]

theorem processEvent_running_ops (event : Info) (s t : State)
    (h : processEvent event s = Flow.running t) :
    storageOps t.trace = storageOps s.trace ++ (event.records.map turnOps).flatten ∧
    downloads t.trace = downloads s.trace
      ++ (event.records.filter fun ro => (suffixFor ro.1.contentType).isSome).map
          (fun ro => ro.1.key) ∧
    uploads t.trace = uploads s.trace
      ++ (event.records.filter fun ro => (suffixFor ro.1.contentType).isSome).map
          (fun ro => ro.1.key) := by
  simp only [processEvent] at h
  cases he : event.err with
  | none =>
    simp only [he] at h
    exact processRecords_running_ops event.records s t h
  | some e =>
    simp only [he] at h
    have hrec := processRecords_running_ops event.records _ t h
    simpa [State.emit, storageOps_append, downloads_append, uploads_append, log_quiet] using hrec

/-- In a run of the loop over the channel in which no turn panics, the objects
downloaded, and likewise the objects uploaded, are the records of supported type
in delivery order, and the download and the upload of a record come before the
ones of the next record. -/
theorem processEvents_running_ops (events : List Info) (s t : State)
    (h : processEvents events s = Flow.running t) :
    storageOps t.trace = storageOps s.trace ++ allTurnOps events ∧
    downloads t.trace = downloads s.trace ++ supportedKeys events ∧
    uploads t.trace = uploads s.trace ++ supportedKeys events := by
  induction events generalizing s with
  | nil =>
    simp only [processEvents, Flow.running.injEq] at h
    subst h
    simp [allTurnOps, supportedKeys]
  | cons event rest ih =>
    simp only [processEvents] at h
    cases hr : processEvent event s with
    | panicked u => simp [hr] at h
    | running u =>
      simp only [hr] at h
      obtain ⟨h1, h2, h3⟩ := processEvent_running_ops event s u hr
      obtain ⟨i1, i2, i3⟩ := ih u h
      refine ⟨?_, ?_, ?_⟩
      · rw [i1, h1]; simp [allTurnOps]
      · rw [i2, h2]; simp [supportedKeys]
      · rw [i3, h3]; simp [supportedKeys]

theorem downloads_map_remove (paths : List String) :
    downloads (paths.map Effect.remove) = [] ∧ uploads (paths.map Effect.remove) = [] := by
  induction paths with
  | nil => exact ⟨rfl, rfl⟩
  | cons p ps ih => simpa [downloads, uploads] using ih

/-- A whole run of `main` that does not die of a panic downloads, and likewise
uploads, exactly the records of supported type, in delivery order. -/
theorem main_not_crashed_ops (accessKey secretKey : String) (events : List Info)
    (hkeys : ¬ (accessKey = "" ∨ secretKey = "")) (h : (main accessKey secretKey events).crashed = false) :
    downloads (main accessKey secretKey events).trace = supportedKeys events ∧
    uploads (main accessKey secretKey events).trace = supportedKeys events := by
  simp only [main, hkeys, if_false] at h ⊢
  cases hp : processEvents events
      (State.emit { trace := check none "cannot create minio client" [], deferred := [] }
        [Effect.println "Starting bucket listener"]) with
  | panicked u => simp [hp, unwind] at h
  | running u =>
    obtain ⟨_, h2, h3⟩ := processEvents_running_ops events _ u hp
    simp only [unwind, downloads_append, uploads_append, downloads_map_remove, h2, h3]
    simp [State.emit, check, downloads, uploads]

theorem main_not_crashed_ops_witness :
    downloads (main "ak" "sk" uploadFailsThenGood).trace = supportedKeys uploadFailsThenGood ∧
    uploads (main "ak" "sk" uploadFailsThenGood).trace = supportedKeys uploadFailsThenGood :=
  main_not_crashed_ops "ak" "sk" uploadFailsThenGood (by decide) (by decide)

end BucketListener

/-! ### The content type the uploader sends -/

namespace Uploader

theorem cutDot_of_not_mem (l : List Char) (h : '.' ∉ l) : cutDot l = (l, [], false) := by
  induction l with
  | nil => rfl
  | cons c cs ih =>
    have hc : c ≠ '.' := fun hc => h (by simp [hc])
    have hcs : '.' ∉ cs := fun hm => h (List.mem_cons_of_mem c hm)
    simp [cutDot, hc, ih hcs]

theorem cutDot_append (before rest : List Char) (h : '.' ∉ before) :
    cutDot (before ++ '.' :: rest) = (before, rest, true) := by
  induction before with
  | nil => simp [cutDot]
  | cons c cs ih =>
    have hc : c ≠ '.' := fun hc => h (by simp [hc])
    have hcs : '.' ∉ cs := fun hm => h (List.mem_cons_of_mem c hm)
    simp [cutDot, hc, ih hcs]

theorem cutDot_split (l : List Char) :
    ('.' ∉ l ∧ cutDot l = (l, [], false)) ∨
    ∃ before rest, '.' ∉ before ∧ l = before ++ '.' :: rest ∧ cutDot l = (before, rest, true) := by
  induction l with
  | nil => exact Or.inl ⟨by simp, rfl⟩
  | cons c cs ih =>
    by_cases hc : c = '.'
    · right
      exact ⟨[], cs, by simp, by simp [hc], by simp [cutDot, hc]⟩
    · rcases ih with ⟨hn, _⟩ | ⟨before, rest, hb, hl, _⟩
      · left
        have hmem : '.' ∉ c :: cs := by
          intro hm
          rcases List.mem_cons.mp hm with h1 | h1
          · exact hc h1.symm
          · exact hn h1
        exact ⟨hmem, cutDot_of_not_mem _ hmem⟩
      · right
        have hmem : '.' ∉ c :: before := by
          intro hm
          rcases List.mem_cons.mp hm with h1 | h1
          · exact hc h1.symm
          · exact hb h1
        refine ⟨c :: before, rest, hmem, by simp [hl], ?_⟩
        rw [hl]
        exact cutDot_append (c :: before) rest hmem

theorem sentContentTypes_check (typeByExtension : String → String) (e : Option String)
    (format : String) (v : List Arg) :
    sentContentTypes typeByExtension (check e format v) = [] := by
  cases e with
  | none => simp [check, sentContentTypes]
  | some msg => by_cases hf : format = "" <;> simp [check, sentContentTypes, hf]

theorem sentContentTypes_append (typeByExtension : String → String) (a b : List Effect) :
    sentContentTypes typeByExtension (a ++ b)
      = sentContentTypes typeByExtension a ++ sentContentTypes typeByExtension b := by
  induction a with
  | nil => rfl
  | cons e es ih => cases e <;> simp [sentContentTypes, ih]

/-- C10 as stated fails in its last clause: for the file "/home/user/cat.jpg"
the name is "cat.jpg", the lookup key is "jpg", which has no type, so the
`ContentType` option handed to `FPutObject` is empty; the library then takes the
type of the extension ".jpg" of the file path, and the object is sent as
"image/jpeg", which is not the result of the lookup. -/
theorem empty_lookup_is_replaced_by_the_extension_type :
    filepathBase "/home/user/cat.jpg" = "cat.jpg" ∧
    ext "cat.jpg" = "jpg" ∧
    getContentType builtinType (filepathBase "/home/user/cat.jpg") = "" ∧
    uploadFile filepathBase builtinType "input-images" "/home/user/cat.jpg"
        ({ key := "cat.jpg", size := 512 }, none)
      = [Effect.fPutObject "input-images" "cat.jpg" "/home/user/cat.jpg" "",
         Effect.fprint colorYellow,
         Effect.fprintf "%-8s" [Arg.str "INFO"],
         Effect.fprintf "Uploaded (key = %s, size = %d)\n" [Arg.str "cat.jpg", Arg.int 512],
         Effect.fprint colorReset] ∧
    filepathExt "/home/user/cat.jpg" = ".jpg" ∧
    sentContentTypes builtinType
        (uploadFile filepathBase builtinType "input-images" "/home/user/cat.jpg"
          ({ key := "cat.jpg", size := 512 }, none))
      = ["image/jpeg"] ∧
    sentContentTypes builtinType
        (uploadFile filepathBase builtinType "input-images" "/home/user/cat.jpg"
          ({ key := "cat.jpg", size := 512 }, none))
      ≠ [getContentType builtinType (filepathBase "/home/user/cat.jpg")] := by
  refine ⟨by decide, by decide, by decide, by decide, by decide, by decide, by decide⟩

/-- C10 as amended: `getContentType` looks up the text that follows the first
'.' of the name, without that dot ("jpg" for "cat.jpg", "tar.gz" for
"a.tar.gz"), and the empty string when the name has no '.'; the key begins with
'.' exactly when the first dot of the name is followed by another dot;
`uploadFile` hands the result of the lookup for the base name to `FPutObject`
as the `ContentType` option, and the object is sent with that result when it is
not empty, and otherwise with the type of the extension of the file path, or
with "application/octet-stream" when that extension has no type. -/
theorem getContentType_key_and_content_type_sent (base typeByExtension : String → String)
    (bucket filePath name : String) (result : UploadInfo × Option String) :
    getContentType typeByExtension name = typeByExtension (ext name) ∧
    (∀ before rest : List Char, '.' ∉ before →
      ext (String.mk (before ++ '.' :: rest)) = String.mk rest) ∧
    (∀ l : List Char, '.' ∉ l → ext (String.mk l) = "") ∧
    (('.' ∉ name.data ∧ ext name = "") ∨
      ∃ before, '.' ∉ before ∧ name.data = before ++ '.' :: (ext name).data) ∧
    ((ext name).data.head? = some '.' ↔
      ∃ before rest, '.' ∉ before ∧ name.data = before ++ '.' :: '.' :: rest) ∧
    ext "cat.jpg" = "jpg" ∧ ext "a.tar.gz" = "tar.gz" ∧ ext "README" = "" ∧
    ext ".bashrc" = "bashrc" ∧ ext "a..b" = ".b" ∧
    getContentType typeByExtension "cat.jpg" = typeByExtension "jpg" ∧
    uploadFile base typeByExtension bucket filePath result
      = Effect.fPutObject bucket (base filePath) filePath
          (typeByExtension (ext (base filePath)))
        :: (check result.2 "Failed to upload file" [] ++
            log "INFO" "Uploaded (key = %s, size = %d)"
              [Arg.str result.1.key, Arg.int result.1.size]) ∧
    sentContentTypes typeByExtension (uploadFile base typeByExtension bucket filePath result)
      = [if typeByExtension (ext (base filePath)) = "" then
           (if typeByExtension (filepathExt filePath) = "" then "application/octet-stream"
            else typeByExtension (filepathExt filePath))
         else typeByExtension (ext (base filePath))] ∧
    sentContentTypes builtinType
        (uploadFile filepathBase builtinType "input-images" "/home/user/a..png"
          ({ key := "a..png", size := 7 }, none))
      = [getContentType builtinType "a..png"] ∧
    getContentType builtinType "a..png" = "image/png" ∧
    sentContentTypes builtinType
        (uploadFile filepathBase builtinType "input-images" "/home/user/notes"
          ({ key := "notes", size := 7 }, none))
      = ["application/octet-stream"] := by
  refine ⟨rfl, ?_, ?_, ?_, ?_, by decide, by decide, by decide, by decide, by decide, ?_, rfl,
    ?_, by decide, by decide, by decide⟩
  · intro before rest h
    simp [ext, cutDot_append before rest h]
  · intro l h
    simp only [ext, cutDot_of_not_mem l h]
  · rcases cutDot_split name.data with ⟨hn, hcut⟩ | ⟨before, rest, hb, hl, hcut⟩
    · left
      refine ⟨hn, ?_⟩
      simp only [ext, hcut]
    · right
      exact ⟨before, hb, by simp only [ext, hcut]; exact hl⟩
  · constructor
    · intro hhead
      rcases cutDot_split name.data with ⟨_, hcut⟩ | ⟨before, rest, hb, hl, hcut⟩
      · simp [ext, hcut] at hhead
      · simp only [ext, hcut] at hhead
        cases rest with
        | nil => simp at hhead
        | cons c cs =>
          simp only [List.head?_cons, Option.some.injEq] at hhead
          exact ⟨before, cs, hb, by rw [hl, hhead]⟩
    · rintro ⟨before, rest, hb, hl⟩
      simp [ext, hl, cutDot_append before _ hb]
  · have h : ext "cat.jpg" = "jpg" := by decide
    simp [getContentType, h]
  · simp only [uploadFile, sentContentTypes, sentContentTypes_append, sentContentTypes_check,
      getContentType, fPutObjectContentType, log, List.nil_append]

end Uploader

end MinioDemo
